import Mathlib

/-!
Verification of the react-route core: residual-URL computation (`nestedUrl`),
all-or-nothing percent-decoding of matched parameters (`toParams` / `match`),
the single-winner arbiter (`Router.refresh` / `Router.match` / `Router.track`),
nested locations (`RouteLocation` / `NestedLocation`) and their `push` /
`fullUrl` behavior, plus a spec-level model of the pattern compiler.

JavaScript strings are embedded as `List Char`; JavaScript functions that can
throw are embedded as `Option`-returning functions (`none` = exception /
`undefined` bail-out); the JS `false`-or-object match type is embedded as
`Option`.
-/

namespace ReactRoute

/-! ## URL model

A JS `URL` value, restricted to the components the router reads and writes.
As in the browser, `search` carries its leading question mark and `hash` its
leading number sign. -/

structure Url where
  protocol : List Char
  host : List Char
  pathname : List Char
  search : List Char
  hash : List Char
deriving DecidableEq, Repr

/-- Split a character list at the first occurrence of `c`: the first component
is everything before `c`, the second starts at `c` (delimiter included), as the
browser URL parser does for `?` and `#`. -/
def splitCharList (c : Char) : List Char → List Char × List Char
  | [] => ([], [])
  | x :: xs =>
    if x = c then ([], x :: xs)
    else
      let p := splitCharList c xs
      (x :: p.1, p.2)

/-- Modelled from the spec: the platform `new URL(path, base)` constructor for
a path-relative input (the only inputs the router constructs): the fragment
starts at the first `#`, the query at the first `?` before it, and the
scheme/host are taken from the base URL. -/
def parsePath (path : List Char) : List Char × List Char × List Char :=
  let ph := splitCharList '#' path
  let ps := splitCharList '?' ph.1
  (ps.1, ps.2, ph.2)

/-- Modelled from the spec: `new URL(newPath, url.href)` where `newPath` is
`pathname + search + hash`. -/
def newURL (path : List Char) (base : Url) : Url :=
  { protocol := base.protocol
    host := base.host
    pathname := (parsePath path).1
    search := (parsePath path).2.1
    hash := (parsePath path).2.2 }

/-- The source's `nestedUrl(url, index, value)`: compute the nested URL for
a route by removing the matched span `[index, index + value.length)` from the
pathname, normalizing an empty result to `/`, reattaching search and hash, and
resolving against the original URL. A zero-length match returns the URL
unchanged. -/
def nestedUrl (url : Url) (index : Nat) (value : List Char) : Url :=
  if value.length = 0 then url
  else
    let newPathname := url.pathname.take index ++ url.pathname.drop (index + value.length)
    let newPath := (if newPathname = [] then ['/'] else newPathname) ++ url.search ++ url.hash
    newURL newPath url

/-! ## Percent decoding and parameter extraction -/

/-- Hex digit value, if any. -/
def hexDigit? (c : Char) : Option Nat :=
  if '0' ≤ c ∧ c ≤ '9' then some (c.toNat - '0'.toNat)
  else if 'a' ≤ c ∧ c ≤ 'f' then some (c.toNat - 'a'.toNat + 10)
  else if 'A' ≤ c ∧ c ≤ 'F' then some (c.toNat - 'A'.toNat + 10)
  else none

/-- Modelled from the spec: `decodeURIComponent` percent-decoding. Every `%`
must be followed by two hex digits; otherwise the input is not validly
percent-encoded and decoding fails (`none` embeds the thrown `URIError`). -/
def percentDecode : List Char → Option (List Char)
  | [] => some []
  | '%' :: c1 :: c2 :: rest =>
    match hexDigit? c1, hexDigit? c2 with
    | some h1, some h2 => (percentDecode rest).map (fun ds => Char.ofNat (16 * h1 + h2) :: ds)
    | _, _ => none
  | '%' :: _ => none
  | c :: rest => (percentDecode rest).map (fun ds => c :: ds)

/-- The source's `toParams`: decode every captured parameter substring with
`decodeURIComponent`; if any single decode throws, bail out and return
`undefined` (`none`) so the whole match attempt fails. -/
def toParams : List (List Char) → Option (List (List Char))
  | [] => some []
  | c :: cs =>
    match percentDecode c with
    | none => none
    | some d => (toParams cs).map (fun ds => d :: ds)

/-- The result of `re.exec(pathname)` when it is not `null`: the matched text
`m[0]`, its index, and the capture groups `m[1..]`. -/
structure ExecResult where
  value : List Char
  index : Nat
  captures : List (List Char)
deriving DecidableEq

/-- A truthy `Match` value from the source: `{ value, index, params }`. -/
structure RouterMatch where
  value : List Char
  index : Nat
  params : List (List Char)
deriving DecidableEq

/-- The source's `match(re, url)` function (named `matchExec` here because
`match` is reserved): run the compiled regexp (embedded abstractly as `exec`)
on the pathname; on no match return `false` (`none`); otherwise decode the
captures with `toParams`, converting a decode failure into `false` as well. -/
def matchExec (exec : List Char → Option ExecResult) (pathname : List Char) :
    Option RouterMatch :=
  match exec pathname with
  | none => none
  | some m =>
    match toParams m.captures with
    | none => none
    | some ps => some { value := m.value, index := m.index, params := ps }

/-! ## Pattern compiler model

Modelled from the spec: the pattern compiler (supplied by the external
`path-to-regexp` library in the source) parses a path pattern into tokens —
literal text and `:name` / `:name?` parameters — and matching runs with the
default options (`start = end = true`, `sensitive = false`, `strict = false`):
anchored at both ends, case-insensitive literals, an optional trailing slash
allowed, each parameter capturing one non-empty slash-free path segment
preceded by its `/` delimiter, an optional parameter's whole group may be
absent, and every present capture is percent-decoded all-or-nothing. -/

/-- A pattern token: literal text, or a (possibly optional) named parameter. -/
inductive Token where
  | literal (value : List Char)
  | param (name : List Char) (optional : Bool)
deriving DecidableEq

/-- Match a literal token case-insensitively at the front of the subject,
returning the remaining subject. -/
def matchLiteral : List Char → List Char → Option (List Char)
  | [], rest => some rest
  | _ :: _, [] => none
  | l :: ls, c :: cs => if l.toLower = c.toLower then matchLiteral ls cs else none

/-- Match one parameter group `/([^\/]+)` at the front of the subject:
the `/` delimiter followed by a non-empty run of non-slash characters.
Returns the captured text and the remaining subject. -/
def matchParam (rest : List Char) : Option (List Char × List Char) :=
  match rest with
  | '/' :: cs =>
    let cap := cs.takeWhile (fun c => c != '/')
    if cap.isEmpty then none else some (cap, cs.drop cap.length)
  | _ => none

/-- Match a token sequence against the whole subject (both ends anchored, a
lone trailing slash allowed), returning the raw named captures in order; an
optional parameter whose group is absent is recorded as `none`. -/
def matchTokens : List Token → List Char → Option (List (List Char × Option (List Char)))
  | [], rest => if rest.isEmpty || rest == ['/'] then some [] else none
  | .literal l :: ts, rest =>
    match matchLiteral l rest with
    | some rest' => matchTokens ts rest'
    | none => none
  | .param n opt :: ts, rest =>
    match matchParam rest with
    | some capRest => (matchTokens ts capRest.2).map (fun ps => (n, some capRest.1) :: ps)
    | none =>
      if opt then (matchTokens ts rest).map (fun ps => (n, none) :: ps) else none

/-- A successful `pathToRegexp.match` result: the matched text (`path`), its
index, and the named parameters (an absent optional parameter is present with
value `none`, the embedding of `undefined`). -/
structure PatternMatchResult where
  path : List Char
  index : Nat
  params : List (List Char × Option (List Char))
deriving DecidableEq

/-- Percent-decode every present capture, all-or-nothing; an absent optional
capture is kept as `none` and is not decoded. -/
def decodeParams :
    List (List Char × Option (List Char)) → Option (List (List Char × Option (List Char)))
  | [] => some []
  | (n, none) :: ps => (decodeParams ps).map (fun ds => (n, none) :: ds)
  | (n, some v) :: ps =>
    match percentDecode v with
    | none => none
    | some d => (decodeParams ps).map (fun ds => (n, some d) :: ds)

/-- Modelled from the spec: the one-shot match function (`pathToRegexp.match`
with default options): match the token sequence against the subject and decode
the parameters; any failure yields the no-match value `none`. With both ends
anchored the matched text is the whole subject at index 0. -/
def matchPattern (tokens : List Token) (subject : List Char) : Option PatternMatchResult :=
  match matchTokens tokens subject with
  | none => none
  | some caps =>
    match decodeParams caps with
    | none => none
    | some ps => some { path := subject, index := 0, params := ps }

/-! ## Single-winner arbiter (the `Router` class) -/

/-- A registered matcher entry: the identity of its compiled regexp (JS object
identity, embedded as a numeric id) and its isMatch procedure against the
current pathname (truthiness of `match(re, url)`). -/
structure Entry where
  id : Nat
  isMatch : List Char → Bool

/-- The `Router` state: the ordered list of tracked routes, the currently
matched route's regexp identity (`this.matched`), the current
`location.url.pathname`, and whether the router is subscribed to URL-change
notifications. -/
structure RouterState where
  routes : List Entry
  matched : Option Nat
  url : List Char
  subscribed : Bool

/-- The source's `Router.match(re, url)`: report failure when an earlier entry in the pass
already holds the win; otherwise run the entry's matcher and, on success,
record it as the winner. Returns the truthiness of the entry's outcome and the
updated winner marker. -/
def routerMatch (matched : Option Nat) (url : List Char) (e : Entry) : Bool × Option Nat :=
  if matched.isSome then (false, matched)
  else if e.isMatch url then (true, some e.id)
  else (false, matched)

/-- The body of `Router.refresh`: update every tracked route in registration
order, threading `this.matched`. Returns the outcome reported to each entry
(paired with its id) and the final winner marker. -/
def refreshSteps (url : List Char) : Option Nat → List Entry → List (Nat × Bool) × Option Nat
  | matched, [] => ([], matched)
  | matched, e :: es =>
    let r := routerMatch matched url e
    let rest := refreshSteps url r.2 es
    ((e.id, r.1) :: rest.1, rest.2)

/-- The source's `Router.refresh()`: reset the matched route, then re-run every tracked
route against the current URL. -/
def refresh (s : RouterState) : List (Nat × Bool) × RouterState :=
  let r := refreshSteps s.url none s.routes
  (r.1, { s with matched := r.2 })

/-- The source's `this.routes.splice(this.routes.indexOf(update), 1)`: remove the first
entry with the given identity (tracked entries are always present, having been
pushed by `track`). -/
def removeFirst : List Entry → Nat → List Entry
  | [], _ => []
  | e :: es, i => if e.id = i then es else e :: removeFirst es i

/-- The source's `Router.track(re, update)`: push the entry and subscribe on the first one. -/
def track (s : RouterState) (e : Entry) : RouterState :=
  { s with
    routes := s.routes ++ [e]
    subscribed := s.subscribed || s.routes.length = 0 }

/-- The cleanup closure returned by `Router.track`: remove the entry; if it was
the currently matching route, refresh synchronously; if no routes remain,
unsubscribe. -/
def deregister (s : RouterState) (e : Entry) : RouterState :=
  let s' : RouterState := { s with routes := removeFirst s.routes e.id }
  let s'' : RouterState := if s.matched = some e.id then (refresh s').2 else s'
  if s''.routes.length = 0 then { s'' with subscribed := false } else s''

/-- An entry whose matcher is the truthiness of the modelled pattern matcher,
as a `<Route />` registers. -/
def patternEntry (id : Nat) (tokens : List Token) : Entry :=
  { id := id, isMatch := fun subject => (matchPattern tokens subject).isSome }

/-! ## Nested locations -/

/-- The location class hierarchy: the external `SimpleLocation` base, the
`RouteLocation` subclass (nested router support, holding the consumed URL and
its parent), and the `NestedLocation` subclass (holding parent, consumed
path and URL). -/
inductive SLocation where
  | simple (u : Url)
  | route (u : Url) (parent : SLocation)
  | nested (parent : SLocation) (consumed : List Char) (u : Url)

/-- The `url` property of each location. -/
def SLocation.url : SLocation → Url
  | .simple u => u
  | .route u _ => u
  | .nested _ _ u => u

/-- The `instanceof RouteLocation` test. -/
def SLocation.isRouteLocation : SLocation → Bool
  | .route _ _ => true
  | _ => false

/-- The `push(location)` method: `RouteLocation` and `NestedLocation` forward the string
to their parent's `push` and return its result. Modelled from the spec at the
base: only the outermost location owns navigation, so the base `push` is
embedded as returning the receiving base location together with the string it
was given (the observables of a navigation request). -/
def SLocation.push : SLocation → List Char → SLocation × List Char
  | .simple u, loc => (.simple u, loc)
  | .route _ parent, loc => parent.push loc
  | .nested parent _ _, loc => parent.push loc

/-- The source's `RouteLocation.fullUrl` getter: if the parent is itself a `RouteLocation`, its
`fullUrl`, otherwise the parent's `url`. On non-`RouteLocation` receivers
(where the source defines no such getter) it is taken to be the own `url`. -/
def SLocation.fullUrl : SLocation → Url
  | .simple u => u
  | .nested _ _ u => u
  | .route _ parent => if parent.isRouteLocation then parent.fullUrl else parent.url

/-- The outermost ancestor in a chain: the first location that is not itself a
`RouteLocation`, following parents. -/
def SLocation.outermost : SLocation → SLocation
  | .route _ parent => parent.outermost
  | l => l

/-- A concrete two-route example: R1 matches `/me`, R2 matches `/:id`, the
current URL is `/me`. -/
def exampleRoutes : List Entry :=
  [patternEntry 1 [Token.literal "/me".toList],
   patternEntry 2 [Token.param "id".toList false]]

/-- The example router state for the routes above. -/
def exampleState : RouterState :=
  { routes := exampleRoutes, matched := none, url := "/me".toList, subscribed := true }

/-- A concrete URL with every component populated. -/
def exampleUrl : Url :=
  { protocol := "https:".toList
    host := "example.com".toList
    pathname := "/foo/bar".toList
    search := "?q=1".toList
    hash := "#h".toList }

/-! ## Lemmas about URL parsing and the residual-URL calculator -/

theorem splitCharList_append (c : Char) (a b : List Char)
    (ha : c ∉ a) (hb : b = [] ∨ b.head? = some c) :
    splitCharList c (a ++ b) = (a, b) := by
  induction a with
  | nil =>
    simp only [List.nil_append]
    rcases hb with rfl | hb
    · rfl
    · cases b with
      | nil => simp at hb
      | cons x xs =>
        simp only [List.head?_cons, Option.some.injEq] at hb
        subst hb
        simp [splitCharList]
  | cons x xs ih =>
    have hxc : x ≠ c := fun h => ha (h ▸ List.mem_cons_self x xs)
    have ha' : c ∉ xs := fun h => ha (List.mem_cons_of_mem _ h)
    simp [splitCharList, hxc, ih ha']

theorem parsePath_recombine (pn s h : List Char)
    (h1 : '#' ∉ pn) (h2 : '?' ∉ pn) (h3 : '#' ∉ s)
    (h4 : s = [] ∨ s.head? = some '?') (h5 : h = [] ∨ h.head? = some '#') :
    parsePath (pn ++ s ++ h) = (pn, s, h) := by
  have hs : '#' ∉ pn ++ s := by
    intro hm
    rcases List.mem_append.mp hm with hm | hm
    · exact h1 hm
    · exact h3 hm
  have e1 : splitCharList '#' (pn ++ (s ++ h)) = (pn ++ s, h) := by
    rw [← List.append_assoc]
    exact splitCharList_append _ _ _ hs h5
  have e2 : splitCharList '?' (pn ++ s) = (pn, s) :=
    splitCharList_append _ _ _ h2 h4
  simp [parsePath, e1, e2]

theorem not_mem_residual {c : Char} {l : List Char} (i n : Nat) (h : c ∉ l) :
    c ∉ l.take i ++ l.drop n := by
  intro hm
  rcases List.mem_append.mp hm with hm | hm
  · exact h (List.take_subset _ _ hm)
  · exact h (List.drop_subset _ _ hm)

/-- C4: for a non-empty matched span, the residual-URL computation removes
exactly the span `[index, index + value.length)` from the pathname,
concatenating the parts before and after, and normalizes an empty result to
`/`. -/
theorem nestedUrl_removes_span (u : Url) (index : Nat) (value : List Char)
    (hv : value ≠ [])
    (hp1 : '#' ∉ u.pathname) (hp2 : '?' ∉ u.pathname)
    (hs1 : '#' ∉ u.search) (hs2 : u.search = [] ∨ u.search.head? = some '?')
    (hh : u.hash = [] ∨ u.hash.head? = some '#') :
    (nestedUrl u index value).pathname =
      (if u.pathname.take index ++ u.pathname.drop (index + value.length) = []
       then ['/']
       else u.pathname.take index ++ u.pathname.drop (index + value.length)) := by
  have hlen : ¬ value.length = 0 := by
    intro h
    exact hv (List.length_eq_zero.mp h)
  have hnp1 : '#' ∉ (if u.pathname.take index ++ u.pathname.drop (index + value.length) = []
      then ['/'] else u.pathname.take index ++ u.pathname.drop (index + value.length)) := by
    by_cases hnil : u.pathname.take index ++ u.pathname.drop (index + value.length) = []
    · simp [hnil]
    · simpa [hnil] using not_mem_residual index (index + value.length) hp1
  have hnp2 : '?' ∉ (if u.pathname.take index ++ u.pathname.drop (index + value.length) = []
      then ['/'] else u.pathname.take index ++ u.pathname.drop (index + value.length)) := by
    by_cases hnil : u.pathname.take index ++ u.pathname.drop (index + value.length) = []
    · simp [hnil]
    · simpa [hnil] using not_mem_residual index (index + value.length) hp2
  have hrec := parsePath_recombine _ u.search u.hash hnp1 hnp2 hs1 hs2 hh
  simp only [nestedUrl, if_neg hlen, newURL, hrec]

/-- C5: a zero-length matched span leaves the URL unchanged, for any offset. -/
theorem nestedUrl_zero_length_passthrough (u : Url) (index : Nat) :
    nestedUrl u index [] = u := by
  simp [nestedUrl]

/-- C6: the residual URL keeps the original search, hash, scheme and host;
only the pathname changes. -/
theorem nestedUrl_preserves_components (u : Url) (index : Nat) (value : List Char)
    (hp1 : '#' ∉ u.pathname) (hp2 : '?' ∉ u.pathname)
    (hs1 : '#' ∉ u.search) (hs2 : u.search = [] ∨ u.search.head? = some '?')
    (hh : u.hash = [] ∨ u.hash.head? = some '#') :
    (nestedUrl u index value).search = u.search ∧
    (nestedUrl u index value).hash = u.hash ∧
    (nestedUrl u index value).protocol = u.protocol ∧
    (nestedUrl u index value).host = u.host := by
  by_cases hlen : value.length = 0
  · simp [nestedUrl, hlen]
  · have hnp1 : '#' ∉ (if u.pathname.take index ++ u.pathname.drop (index + value.length) = []
        then ['/'] else u.pathname.take index ++ u.pathname.drop (index + value.length)) := by
      by_cases hnil : u.pathname.take index ++ u.pathname.drop (index + value.length) = []
      · simp [hnil]
      · simpa [hnil] using not_mem_residual index (index + value.length) hp1
    have hnp2 : '?' ∉ (if u.pathname.take index ++ u.pathname.drop (index + value.length) = []
        then ['/'] else u.pathname.take index ++ u.pathname.drop (index + value.length)) := by
      by_cases hnil : u.pathname.take index ++ u.pathname.drop (index + value.length) = []
      · simp [hnil]
      · simpa [hnil] using not_mem_residual index (index + value.length) hp2
    have hrec := parsePath_recombine _ u.search u.hash hnp1 hnp2 hs1 hs2 hh
    simp only [nestedUrl, if_neg hlen, newURL, hrec]
    exact ⟨trivial, trivial, trivial, trivial⟩

/-- Witness for C4 at the two spec examples: residual of `/foo/bar` after
consuming `/foo` at offset 0 has pathname `/bar`, and residual of `/foo`
after consuming all of `/foo` has pathname `/`. -/
theorem nestedUrl_removes_span_witness :
    ("/foo".toList ≠ [] ∧
      '#' ∉ exampleUrl.pathname ∧ '?' ∉ exampleUrl.pathname ∧
      '#' ∉ exampleUrl.search ∧
      (exampleUrl.search = [] ∨ exampleUrl.search.head? = some '?') ∧
      (exampleUrl.hash = [] ∨ exampleUrl.hash.head? = some '#') ∧
      (nestedUrl exampleUrl 0 "/foo".toList).pathname =
        (if exampleUrl.pathname.take 0 ++ exampleUrl.pathname.drop (0 + "/foo".toList.length) = []
         then ['/']
         else exampleUrl.pathname.take 0 ++
           exampleUrl.pathname.drop (0 + "/foo".toList.length))) ∧
    (nestedUrl { exampleUrl with pathname := "/foo".toList } 0 "/foo".toList).pathname =
      (if ("/foo".toList : List Char).take 0 ++ "/foo".toList.drop (0 + "/foo".toList.length) = []
       then ['/']
       else ("/foo".toList : List Char).take 0 ++ "/foo".toList.drop (0 + "/foo".toList.length)) :=
  ⟨⟨by decide, by decide, by decide, by decide, by decide, by decide,
    nestedUrl_removes_span exampleUrl 0 ("/foo".toList) (by decide) (by decide) (by decide)
      (by decide) (by decide) (by decide)⟩,
   nestedUrl_removes_span { exampleUrl with pathname := "/foo".toList } 0 ("/foo".toList)
     (by decide) (by decide) (by decide) (by decide) (by decide) (by decide)⟩

/-- Witness for C6 at a URL with every component populated. -/
theorem nestedUrl_preserves_components_witness :
    '#' ∉ exampleUrl.pathname ∧ '?' ∉ exampleUrl.pathname ∧
    '#' ∉ exampleUrl.search ∧
    (exampleUrl.search = [] ∨ exampleUrl.search.head? = some '?') ∧
    (exampleUrl.hash = [] ∨ exampleUrl.hash.head? = some '#') ∧
    ((nestedUrl exampleUrl 0 "/foo".toList).search = exampleUrl.search ∧
     (nestedUrl exampleUrl 0 "/foo".toList).hash = exampleUrl.hash ∧
     (nestedUrl exampleUrl 0 "/foo".toList).protocol = exampleUrl.protocol ∧
     (nestedUrl exampleUrl 0 "/foo".toList).host = exampleUrl.host) :=
  ⟨by decide, by decide, by decide, by decide, by decide,
   nestedUrl_preserves_components exampleUrl 0 ("/foo".toList) (by decide) (by decide)
     (by decide) (by decide) (by decide)⟩

/-! ## Lemmas about parameter decoding -/

theorem toParams_eq_none_of_bad_capture (cs : List (List Char)) (c : List Char)
    (hm : c ∈ cs) (hd : percentDecode c = none) : toParams cs = none := by
  induction cs with
  | nil => cases hm
  | cons x xs ih =>
    rcases List.mem_cons.mp hm with rfl | hm'
    · simp [toParams, hd]
    · unfold toParams
      cases hx : percentDecode x with
      | none => rfl
      | some d => simp [ih hm']

/-- C3: if percent-decoding any single captured parameter substring fails, the
entire match attempt returns the no-match value (`none` embeds `false`): no
partial result is produced and no exception escapes to the caller. -/
theorem decode_failure_fails_whole_match (exec : List Char → Option ExecResult)
    (pathname : List Char) (m : ExecResult) (c : List Char)
    (hexec : exec pathname = some m) (hc : c ∈ m.captures)
    (hd : percentDecode c = none) :
    matchExec exec pathname = none := by
  unfold matchExec
  rw [hexec]
  simp [toParams_eq_none_of_bad_capture m.captures c hc hd]

/-- Witness for C3: a regexp whose exec result captures the lone text `%`,
which is not validly percent-encoded. -/
theorem decode_failure_fails_whole_match_witness :
    ((fun _ : List Char => some { value := "/a/%".toList, index := 0, captures := [['%']] :
        ExecResult }) "/a/%".toList =
      some { value := "/a/%".toList, index := 0, captures := [['%']] : ExecResult }) ∧
    (['%'] ∈ ({ value := "/a/%".toList, index := 0, captures := [['%']] : ExecResult }).captures) ∧
    (percentDecode ['%'] = none) ∧
    matchExec
      (fun _ : List Char => some { value := "/a/%".toList, index := 0, captures := [['%']] })
      "/a/%".toList = none :=
  ⟨rfl, by decide, by decide,
   decode_failure_fails_whole_match _ ("/a/%".toList)
     { value := "/a/%".toList, index := 0, captures := [['%']] } ['%']
     rfl (by decide) (by decide)⟩

/-! ## Lemmas about the arbiter's refresh pass -/

theorem refreshSteps_saturated (url : List Char) (m : Option Nat)
    (hm : m.isSome = true) (es : List Entry) :
    refreshSteps url m es = (es.map (fun e => (e.id, false)), m) := by
  induction es with
  | nil => simp [refreshSteps]
  | cons e es ih => simp [refreshSteps, routerMatch, hm, ih]

theorem countP_snd_map_false (es : List Entry) :
    (es.map (fun e => (e.id, false))).countP (fun q => q.2) = 0 := by
  rw [List.countP_eq_zero]
  intro a ha
  rcases List.mem_map.mp ha with ⟨e, _, rfl⟩
  simp

theorem refreshSteps_countP_le_one (url : List Char) (m : Option Nat) (es : List Entry) :
    ((refreshSteps url m es).1.countP (fun q => q.2)) ≤ 1 := by
  induction es generalizing m with
  | nil => simp [refreshSteps]
  | cons e es ih =>
    by_cases hm : m.isSome = true
    · have hout : (refreshSteps url m (e :: es)).1 = (e :: es).map (fun x => (x.id, false)) := by
        rw [refreshSteps_saturated url m hm]
      rw [hout, countP_snd_map_false]
      omega
    · have hm' : m = none := by
        cases m with
        | none => rfl
        | some v => simp at hm
      subst hm'
      by_cases he : e.isMatch url = true
      · have hr : routerMatch none url e = (true, some e.id) := by
          simp [routerMatch, he]
        have hout : (refreshSteps url none (e :: es)).1 =
            (e.id, true) :: es.map (fun x => (x.id, false)) := by
          simp [refreshSteps, hr, refreshSteps_saturated url (some e.id) rfl es]
        rw [hout, List.countP_cons, countP_snd_map_false]
        simp
      · have he' : e.isMatch url = false := by simpa using he
        have hr : routerMatch none url e = (false, none) := by
          simp [routerMatch, he']
        have hout : (refreshSteps url none (e :: es)).1 =
            (e.id, false) :: (refreshSteps url none es).1 := by
          simp [refreshSteps, hr]
        rw [hout, List.countP_cons]
        simpa using ih none

theorem refreshSteps_final_none (url : List Char) (es : List Entry) :
    (refreshSteps url none es).2 = (es.find? (fun x => x.isMatch url)).map (fun x => x.id) := by
  induction es with
  | nil => simp [refreshSteps]
  | cons e es ih =>
    by_cases he : e.isMatch url = true
    · have hr : routerMatch none url e = (true, some e.id) := by
        simp [routerMatch, he]
      have hfind : (e :: es).find? (fun x => x.isMatch url) = some e :=
        List.find?_cons_of_pos es he
      simp [refreshSteps, hr, refreshSteps_saturated url (some e.id) rfl es, hfind]
    · have he' : e.isMatch url = false := by simpa using he
      have hr : routerMatch none url e = (false, none) := by
        simp [routerMatch, he']
      have hfind : (e :: es).find? (fun x => x.isMatch url) =
          es.find? (fun x => x.isMatch url) :=
        List.find?_cons_of_neg es (by simp [he'])
      simp [refreshSteps, hr, ih, hfind]

theorem refreshSteps_outcome_true_iff (url : List Char) (es : List Entry)
    (i : Nat) (p : Nat × Bool)
    (hp : (refreshSteps url none es).1.get? i = some p) :
    (p.2 = true ↔ ∃ e, es.get? i = some e ∧ e.isMatch url = true ∧
      ∀ j, j < i → ∀ e', es.get? j = some e' → e'.isMatch url = false) := by
  induction es generalizing i p with
  | nil => simp [refreshSteps] at hp
  | cons e es ih =>
    by_cases he : e.isMatch url = true
    · have hr : routerMatch none url e = (true, some e.id) := by
        simp [routerMatch, he]
      have hsat := refreshSteps_saturated url (some e.id) rfl es
      simp only [refreshSteps, hr, hsat] at hp
      cases i with
      | zero =>
        simp only [List.get?_cons_zero, Option.some.injEq] at hp
        subst hp
        simp only [true_iff]
        exact ⟨e, rfl, he, fun j hj => absurd hj (Nat.not_lt_zero j)⟩
      | succ i' =>
        simp only [List.get?_cons_succ, List.get?_map] at hp
        constructor
        · intro htrue
          exfalso
          rcases Option.map_eq_some'.mp hp with ⟨e'', hg, hpe⟩
          rw [← hpe] at htrue
          exact Bool.false_ne_true htrue
        · rintro ⟨e'', hg'', hm'', hall⟩
          have h0 := hall 0 (Nat.succ_pos i') e (by simp)
          rw [he] at h0
          exact absurd h0 (by simp)
    · have hr : routerMatch none url e = (false, none) := by
        simp [routerMatch, he]
      simp only [refreshSteps, hr] at hp
      cases i with
      | zero =>
        simp only [List.get?_cons_zero, Option.some.injEq] at hp
        subst hp
        simp only [Bool.false_eq_true, false_iff]
        rintro ⟨e'', hg, hm', _⟩
        simp only [List.get?_cons_zero, Option.some.injEq] at hg
        subst hg
        exact he hm'
      | succ i' =>
        simp only [List.get?_cons_succ] at hp
        rw [ih i' p hp]
        constructor
        · rintro ⟨e'', hg, hm', hall⟩
          refine ⟨e'', by simpa using hg, hm', ?_⟩
          intro j hj e' hg'
          cases j with
          | zero =>
            simp only [List.get?_cons_zero, Option.some.injEq] at hg'
            subst hg'
            simpa using he
          | succ j' =>
            exact hall j' (Nat.lt_of_succ_lt_succ hj) e' (by simpa using hg')
        · rintro ⟨e'', hg, hm', hall⟩
          refine ⟨e'', by simpa using hg, hm', ?_⟩
          intro j hj e' hg'
          exact hall (j + 1) (Nat.succ_lt_succ hj) e' (by simpa using hg')

/-- C1: after any refresh pass, at most one registered entry is reported
matched, and an entry's outcome is `true` exactly when it is the first entry in
registration order whose matcher succeeds on the current URL; every other
entry, matching or not, is reported as non-matching. This holds for every
router state, hence after any sequence of register, deregister and URL-change
operations. -/
theorem refresh_at_most_one_winner (s : RouterState) (i : Nat) (p : Nat × Bool)
    (hp : (refresh s).1.get? i = some p) :
    ((refresh s).1.countP (fun q => q.2) ≤ 1) ∧
    (p.2 = true ↔ ∃ e, s.routes.get? i = some e ∧ e.isMatch s.url = true ∧
      ∀ j, j < i → ∀ e', s.routes.get? j = some e' → e'.isMatch s.url = false) :=
  ⟨refreshSteps_countP_le_one s.url none s.routes,
   refreshSteps_outcome_true_iff s.url s.routes i p hp⟩

/-- Witness for C1 at the two-route example (both entries match `/me`). -/
theorem refresh_at_most_one_winner_witness :
    ((refresh exampleState).1.get? 0 = some (1, true)) ∧
    ((refresh exampleState).1.countP (fun q => q.2) ≤ 1) ∧
    (((1, true) : Nat × Bool).2 = true ↔ ∃ e, exampleState.routes.get? 0 = some e ∧
      e.isMatch exampleState.url = true ∧
      ∀ j, j < 0 → ∀ e', exampleState.routes.get? j = some e' →
        e'.isMatch exampleState.url = false) :=
  ⟨by decide, refresh_at_most_one_winner exampleState 0 (1, true) (by decide)⟩

/-- C2: given two registered entries whose patterns both match the current
URL, the first-registered one is reported matched and the later one reported
non-matched, regardless of pattern specificity. -/
theorem first_registered_entry_wins (id1 id2 : Nat) (p1 p2 : List Token)
    (url : List Char) (m0 : Option Nat) (sub : Bool)
    (h1 : (matchPattern p1 url).isSome = true)
    (h2 : (matchPattern p2 url).isSome = true) :
    (refresh { routes := [patternEntry id1 p1, patternEntry id2 p2],
               matched := m0, url := url, subscribed := sub }).1 =
      [(id1, true), (id2, false)] := by
  have h2' := h2
  simp [refresh, refreshSteps, routerMatch, patternEntry, h1]

/-- Witness for C2 at the spec scenario: R1 `/me`, R2 `/:id`, URL `/me`; R2's
pattern alone recognizes `/me`, yet only R1 is reported matched. -/
theorem first_registered_entry_wins_witness :
    ((matchPattern [Token.literal "/me".toList] "/me".toList).isSome = true) ∧
    ((matchPattern [Token.param "id".toList false] "/me".toList).isSome = true) ∧
    (refresh { routes := [patternEntry 1 [Token.literal "/me".toList],
                          patternEntry 2 [Token.param "id".toList false]],
               matched := none, url := "/me".toList, subscribed := true }).1 =
      [(1, true), (2, false)] :=
  ⟨by decide, by decide,
   first_registered_entry_wins 1 2 [Token.literal "/me".toList]
     [Token.param "id".toList false] ("/me".toList) none true (by decide) (by decide)⟩

/-- C7: deregistering the entry currently marked as winner runs a full refresh
synchronously within the deregistration itself: the state it returns already
has the winner re-arbitrated as the first matching entry of the shrunk list,
and the removed entry is never left marked as winner. -/
theorem deregister_winner_rearbitrates (s : RouterState) (e : Entry)
    (hw : s.matched = some e.id)
    (hu : ∀ e' ∈ removeFirst s.routes e.id, e'.id ≠ e.id) :
    ((deregister s e).matched =
      ((removeFirst s.routes e.id).find? (fun r => r.isMatch s.url)).map (fun r => r.id)) ∧
    (deregister s e).matched ≠ some e.id := by
  have hd : (deregister s e).matched =
      (refreshSteps s.url none (removeFirst s.routes e.id)).2 := by
    simp only [deregister, hw, if_pos rfl, refresh]
    by_cases hz : (removeFirst s.routes e.id).length = 0 <;> simp [hz]
  rw [hd, refreshSteps_final_none]
  refine ⟨rfl, ?_⟩
  intro heq
  rcases Option.map_eq_some'.mp heq with ⟨a, hfind, hid⟩
  exact hu a (List.mem_of_find?_eq_some hfind) hid

/-- Witness for C7: with R1 the current winner on `/me`, deregistering R1
leaves R2 (whose `/:id` also matches `/me`) as the new winner, not R1. -/
theorem deregister_winner_rearbitrates_witness :
    ({ exampleState with matched := some 1 } : RouterState).matched =
      some (patternEntry 1 [Token.literal "/me".toList]).id ∧
    (∀ e' ∈ removeFirst ({ exampleState with matched := some 1 } : RouterState).routes
        (patternEntry 1 [Token.literal "/me".toList]).id,
      e'.id ≠ (patternEntry 1 [Token.literal "/me".toList]).id) ∧
    (((deregister { exampleState with matched := some 1 }
        (patternEntry 1 [Token.literal "/me".toList])).matched =
      ((removeFirst ({ exampleState with matched := some 1 } : RouterState).routes
          (patternEntry 1 [Token.literal "/me".toList]).id).find?
        (fun r => r.isMatch ({ exampleState with matched := some 1 } : RouterState).url)).map
        (fun r => r.id)) ∧
    (deregister { exampleState with matched := some 1 }
        (patternEntry 1 [Token.literal "/me".toList])).matched ≠
      some (patternEntry 1 [Token.literal "/me".toList]).id) :=
  ⟨by decide, by decide,
   deregister_winner_rearbitrates { exampleState with matched := some 1 }
     (patternEntry 1 [Token.literal "/me".toList]) (by decide) (by decide)⟩

/-! ## Optional parameters, push forwarding and fullUrl -/

/-- C8: matching the pattern `/blog/:id?` against the path `/blog` succeeds
with the `id` parameter present but undefined (`none`): an absent optional
group neither fails the match nor is percent-decoded. -/
theorem optional_param_absent_still_matches :
    matchPattern [Token.literal "/blog".toList, Token.param "id".toList true] "/blog".toList =
      some { path := "/blog".toList, index := 0, params := [("id".toList, none)] } := by
  decide

theorem push_arg_reaches_base_unchanged (s : List Char) :
    ∀ loc : SLocation, (loc.push s).2 = s := by
  intro loc
  induction loc with
  | simple u => rfl
  | route u p ih => exact ih
  | nested p consumed u ih => exact ih

/-- C9: a nested location's `push` forwards the exact string to its parent's
`push` and returns that call's result, for both the `RouteLocation` and the
`NestedLocation` wrapper; the string reaches the owning base location
unmodified. -/
theorem push_forwards_to_parent (u : Url) (parent : SLocation)
    (consumed : List Char) (s : List Char) :
    SLocation.push (.route u parent) s = parent.push s ∧
    SLocation.push (.nested parent consumed u) s = parent.push s ∧
    (parent.push s).2 = s :=
  ⟨rfl, rfl, push_arg_reaches_base_unchanged s parent⟩

/-- C10: for any chain of nested route locations, `fullUrl` is the `url` of
the outermost ancestor (the first parent that is not itself a
`RouteLocation`), and is therefore invariant across nesting levels: the
`fullUrl` of a route location equals the `fullUrl` of its parent. -/
theorem fullUrl_is_outermost_url (u : Url) (parent : SLocation) :
    SLocation.fullUrl (.route u parent) = parent.outermost.url ∧
    SLocation.fullUrl (.route u parent) = parent.fullUrl := by
  induction parent generalizing u with
  | simple u' => exact ⟨rfl, rfl⟩
  | nested p consumed u' ih => exact ⟨rfl, rfl⟩
  | route u' p ih => exact ⟨(ih u').1, rfl⟩

end ReactRoute
